import Mathlib

/-!
Verification of the slang-analysis pipeline (slang_analyzer.py, dashboard.py).

The pipeline calls a generation model many times (analyze_with_haiku), passes
the surviving free-text results through a structured-extraction call
(parse_with_sonnet / parse_single_sonnet), and aggregates the structured
records' primary meanings by frequency (main in slang_analyzer.py for the CLI,
display_results in dashboard.py for the dashboard).

Network effects are embedded as explicit outcome values: each API call's
behaviour is an `ApiOutcome` (the extraction stage) or an
`Except String String` (the generation stage), supplied by the environment.
The functions below are otherwise direct translations of the Python source.
-/

namespace SlangAnalysis

/-- A structured record as returned by `parse_single_sonnet`.  Python
represents it as a dict; a key that may be absent is an `Option` field
(`error` absent ↔ `none`, matching Python's `'error' not in r`). -/
structure ParsedRecord where
  term : Option String
  primary_meaning : Option String
  letter_breakdown : Option (List (Char × String))
  error : Option String
deriving Repr, DecidableEq

/-- Behaviour of one structured-extraction API call in `parse_single_sonnet`:
the model invokes the tool with some input record, or responds without any
tool_use block, or the call raises an exception with message `e`. -/
inductive ApiOutcome where
  | toolUse (input : ParsedRecord)
  | noToolUse
  | raised (e : String)
deriving Repr, DecidableEq

/-- The designated generation-stage error marker (`f"Error: {str(e)}"`). -/
def errorMarker : String := "Error:"

/-- Credential lookup (`get_api_key`): Python's `if not api_key: raise`
treats both an unset variable (`None`) and the empty string as falsy. -/
def get_api_key (env : Option String) : Except String String :=
  match env with
  | none => Except.error "ANTHROPIC_API_KEY environment variable not set"
  | some key =>
      if key = "" then Except.error "ANTHROPIC_API_KEY environment variable not set"
      else Except.ok key

/-- One step of the dict-building loop in `parse_single_sonnet`
(`letter_properties[letter] = {...}`): inserting an existing key overwrites
its value and keeps the key order, a new key is appended. -/
def dictInsertKey (acc : List Char) (c : Char) : List Char :=
  if c ∈ acc then acc else acc ++ [c]

/-- The character sequence Python iterates over in
`for letter in slang_term.lower()` (also `list(slang_term.lower())` in the
dashboard): the term's characters, case-folded. -/
def lowerChars (s : String) : List Char :=
  s.toList.map Char.toLower

/-- The key set of the dynamic letter schema built by `parse_single_sonnet`
(`for letter in slang_term.lower(): letter_properties[letter] = ...`),
in dict insertion order. -/
def schemaKeys (slang_term : String) : List Char :=
  (lowerChars slang_term).foldl dictInsertKey []

/-- `parse_single_sonnet` as a function of the call's outcome: a tool_use
block yields its input; a response with no tool_use yields the
"Parse failed - no tool use" placeholder (note: NO `error` key); an
exception yields the "Parse failed" record with an `error` key and no
`letter_breakdown` key. -/
def parse_single_sonnet (slang_term : String) (outcome : ApiOutcome) : ParsedRecord :=
  match outcome with
  | ApiOutcome.toolUse input => input
  | ApiOutcome.noToolUse =>
      { term := some slang_term
        primary_meaning := some "Parse failed - no tool use"
        letter_breakdown := some []
        error := none }
  | ApiOutcome.raised e =>
      { term := some slang_term
        primary_meaning := some "Parse failed"
        letter_breakdown := none
        error := some e }

/-- `parse_with_sonnet`: one structuring call per haiku result, results
collected by `asyncio.gather` in the order of the input tasks (not in
completion order).  `env i` is the outcome of the call for input `i`. -/
def parse_with_sonnet (slang_term : String) (haiku_results : List String)
    (env : Nat → ApiOutcome) : List ParsedRecord :=
  (List.range haiku_results.length).map (fun i => parse_single_sonnet slang_term (env i))

/-- `analyze_single_haiku`: returns the model's text, or `"Error: " ++ e`
when the call raises. -/
def analyze_single_haiku (outcome : Except String String) : String :=
  match outcome with
  | Except.ok text => text
  | Except.error e => errorMarker ++ " " ++ e

/-- Python's `r.startswith("Error:")`, over the character sequences. -/
def startsWithMarker (r : String) : Bool :=
  errorMarker.toList.isPrefixOf r.toList

/-- The filter at the end of `analyze_with_haiku`:
`[r for r in results if not r.startswith("Error:")]`. -/
def filterValidHaiku (results : List String) : List String :=
  results.filter (fun r => !(startsWithMarker r))

/-- `analyze_with_haiku`: run all generation calls, then drop the results
that begin with the error marker. -/
def analyze_with_haiku (outcomes : List (Except String String)) : List String :=
  filterValidHaiku (outcomes.map analyze_single_haiku)

/-- `run_analysis`: the generation stage fully completes, then the surviving
results are fed to the structuring stage. -/
def run_analysis (slang_term : String) (genOutcomes : List (Except String String))
    (parseEnv : Nat → ApiOutcome) : List String × List ParsedRecord :=
  let haiku_results := analyze_with_haiku genOutcomes
  (haiku_results, parse_with_sonnet slang_term haiku_results parseEnv)

/-- The CLI validity filter in `main`:
`[r for r in results['parsed_results'] if 'error' not in r]`. -/
def cliValidFilter (parsed : List ParsedRecord) : List ParsedRecord :=
  parsed.filter (fun r => r.error.isNone)

/-- Python truthiness of `r.get("primary_meaning")`: the key is present and
its value is a non-empty string. -/
def pyTruthy (s : Option String) : Bool :=
  match s with
  | none => false
  | some t => !(t == "")

/-- The dashboard validity filter in `display_results`:
`[r for r in parsed_results if r.get("primary_meaning") and "error" not in r]`. -/
def dashboardValidFilter (parsed : List ParsedRecord) : List ParsedRecord :=
  parsed.filter (fun r => pyTruthy r.primary_meaning && r.error.isNone)

/-- The spec's validity notion, written from the spec's words ("those without
an error indicator and with a non-empty primary field"), for comparison with
the filters taken from the code. -/
def specValid (r : ParsedRecord) : Bool :=
  r.error.isNone && pyTruthy r.primary_meaning

/-- One step of `collections.Counter` construction: increment an existing
key's count (keeping first-seen key order) or append a new key with count 1. -/
def counterAdd (acc : List (String × Nat)) (x : String) : List (String × Nat) :=
  if acc.any (fun p => p.1 = x) then
    acc.map (fun p => if p.1 = x then (p.1, p.2 + 1) else p)
  else acc ++ [(x, 1)]

/-- `collections.Counter(xs)` as an association list in first-seen key order. -/
def counter (xs : List String) : List (String × Nat) :=
  xs.foldl counterAdd []

/-- Stable insertion for descending-by-count order: the new element is placed
before the first element whose count is ≤ its own, so among equal counts the
element inserted last (= earliest in the original list, with the fold below)
comes first. -/
def insertDesc (x : String × Nat) : List (String × Nat) → List (String × Nat)
  | [] => [x]
  | y :: ys => if y.2 ≤ x.2 then x :: y :: ys else y :: insertDesc x ys

/-- Stable sort by descending count, the ordering `Counter.most_common` uses
(`sorted(items, key=count, reverse=True)` is stable: ties keep their
original, i.e. first-seen, order). -/
def sortDesc : List (String × Nat) → List (String × Nat)
  | [] => []
  | x :: xs => insertDesc x (sortDesc xs)

/-- `Counter(xs).most_common(n)`. -/
def mostCommon (n : Nat) (xs : List String) : List (String × Nat) :=
  (sortDesc (counter xs)).take n

/-- The meanings list the CLI aggregates:
`[r.get('primary_meaning', '') for r in valid_results]`. -/
def cliMeanings (parsed : List ParsedRecord) : List String :=
  (cliValidFilter parsed).map (fun r => r.primary_meaning.getD "")

/-- One printed line of the CLI top-interpretations summary. -/
def formatTopLine (i : Nat) (p : String × Nat) : String :=
  toString (i + 1) ++ ". " ++ p.1 ++ " (" ++ toString p.2 ++ " times)"

/-- The CLI `main` after argument parsing, as a function of the pipeline
outcome (`asyncio.run(run_analysis ...)` succeeding with parsed records, or
raising): returns the printed lines and the process exit status.  The
`except` clause prints `f"Error: {e}"` and falls through, so `main` returns
normally — the interpreter exits with status 0 on both paths. -/
def cliMain (slang_term : String) (outcome : Except String (List ParsedRecord)) :
    List String × Nat :=
  match outcome with
  | Except.error e => ([errorMarker ++ " " ++ e], 0)
  | Except.ok parsed =>
      let valid := cliValidFilter parsed
      let top := mostCommon 5 (cliMeanings parsed)
      ( ["=== Results for '" ++ slang_term ++ "' ===",
         "Valid results: " ++ toString valid.length,
         "Top interpretations:"]
          ++ top.enum.map (fun p => formatTopLine p.1 p.2),
        0)

/-- One step of the dashboard's per-letter aggregation: append `m` to the
bucket for letter `c`, creating the bucket on first sight. -/
def bucketAdd (acc : List (Char × List String)) (c : Char) (m : String) :
    List (Char × List String) :=
  if acc.any (fun p => p.1 = c) then
    acc.map (fun p => if p.1 = c then (p.1, p.2 ++ [m]) else p)
  else acc ++ [(c, [m])]

/-- The dashboard's `letter_aggregation` in `display_results`: for each valid
record, each `(letter, meaning)` entry of `r.get("letter_breakdown", {})` is
appended to the bucket keyed by the letter. -/
def letterAggregation (valid : List ParsedRecord) : List (Char × List String) :=
  valid.foldl
    (fun acc r => (r.letter_breakdown.getD []).foldl (fun a p => bucketAdd a p.1 p.2) acc)
    []

/-- State of one bounded fan-out batch (`analyze_with_haiku` or
`parse_with_sonnet`): how many tasks are still queued behind the semaphore,
how many are in flight (inside `async with semaphore`), how many are done,
and how many permits the semaphore currently holds. -/
structure FanoutState where
  queued : Nat
  inFlight : Nat
  done : Nat
  permits : Nat
deriving Repr, DecidableEq

/-- The concurrency cap: `asyncio.Semaphore(10)` in both stages. -/
def semaphoreCap : Nat := 10

/-- Initial state of a batch of `n` tasks: all queued, the semaphore full. -/
def initState (n : Nat) : FanoutState :=
  { queued := n, inFlight := 0, done := 0, permits := semaphoreCap }

/-- Cooperative-scheduler steps of `run_with_semaphore`: a queued task may
start only when the semaphore has a permit left (acquire on entering
`async with semaphore`); a task in flight may finish, releasing its permit
on exit. -/
inductive FanoutStep : FanoutState → FanoutState → Prop where
  | start (s : FanoutState) (hq : 0 < s.queued) (hp : 0 < s.permits) :
      FanoutStep s { queued := s.queued - 1, inFlight := s.inFlight + 1,
                     done := s.done, permits := s.permits - 1 }
  | finish (s : FanoutState) (hf : 0 < s.inFlight) :
      FanoutStep s { queued := s.queued, inFlight := s.inFlight - 1,
                     done := s.done + 1, permits := s.permits + 1 }

/-- Reachability from the initial state of an `n`-task batch. -/
def FanoutReachable (n : Nat) (s : FanoutState) : Prop :=
  Relation.ReflTransGen FanoutStep (initState n) s

/-! ## Helper lemmas -/

theorem mem_dictInsertKey (acc : List Char) (d c : Char) :
    c ∈ dictInsertKey acc d ↔ c ∈ acc ∨ c = d := by
  unfold dictInsertKey
  split
  · rename_i h
    constructor
    · intro hc
      exact Or.inl hc
    · rintro (hc | rfl)
      · exact hc
      · exact h
  · simp

theorem nodup_dictInsertKey (acc : List Char) (d : Char) (h : acc.Nodup) :
    (dictInsertKey acc d).Nodup := by
  unfold dictInsertKey
  split
  · exact h
  · rename_i hd
    simp [List.nodup_append, h, hd]

theorem mem_foldl_dictInsertKey (cs : List Char) (acc : List Char) (c : Char) :
    c ∈ cs.foldl dictInsertKey acc ↔ c ∈ acc ∨ c ∈ cs := by
  induction cs generalizing acc with
  | nil => simp
  | cons d ds ih =>
      simp only [List.foldl_cons, ih, mem_dictInsertKey, List.mem_cons]
      tauto

theorem nodup_foldl_dictInsertKey (cs : List Char) (acc : List Char) (h : acc.Nodup) :
    (cs.foldl dictInsertKey acc).Nodup := by
  induction cs generalizing acc with
  | nil => exact h
  | cons d ds ih => exact ih _ (nodup_dictInsertKey acc d h)

theorem mem_insertDesc (x z : String × Nat) (l : List (String × Nat)) :
    z ∈ insertDesc x l ↔ z = x ∨ z ∈ l := by
  induction l with
  | nil => simp [insertDesc]
  | cons y ys ih =>
      simp only [insertDesc]
      split
      · simp [List.mem_cons]
      · simp only [List.mem_cons, ih]
        tauto

theorem pairwise_insertDesc (x : String × Nat) (l : List (String × Nat))
    (h : l.Pairwise (fun a b => b.2 ≤ a.2)) :
    (insertDesc x l).Pairwise (fun a b => b.2 ≤ a.2) := by
  induction l with
  | nil => simp [insertDesc]
  | cons y ys ih =>
      rw [List.pairwise_cons] at h
      obtain ⟨hy, hys⟩ := h
      simp only [insertDesc]
      split
      · rename_i hle
        rw [List.pairwise_cons]
        refine ⟨?_, ?_⟩
        · intro z hz
          rcases List.mem_cons.mp hz with rfl | hz'
          · exact hle
          · exact le_trans (hy z hz') hle
        · rw [List.pairwise_cons]
          exact ⟨hy, hys⟩
      · rename_i hgt
        rw [List.pairwise_cons]
        refine ⟨?_, ih hys⟩
        intro z hz
        rcases (mem_insertDesc x z ys).mp hz with rfl | hz'
        · exact le_of_not_le hgt
        · exact hy z hz'

theorem filter_insertDesc (x : String × Nat) (l : List (String × Nat)) (c : Nat) :
    (insertDesc x l).filter (fun p => p.2 == c) =
      (if x.2 = c then [x] else []) ++ l.filter (fun p => p.2 == c) := by
  induction l with
  | nil =>
      by_cases hx : x.2 = c <;>
        simp [insertDesc, List.filter_cons, beq_iff_eq, hx]
  | cons y ys ih =>
      simp only [insertDesc]
      split
      · rename_i hle
        by_cases hx : x.2 = c <;>
          simp [List.filter_cons, beq_iff_eq, hx]
      · rename_i hgt
        have hxy : x.2 < y.2 := lt_of_not_le hgt
        by_cases hy : y.2 = c
        · have hx : ¬ x.2 = c := by omega
          simp [List.filter_cons, beq_iff_eq, hx, hy, ih]
        · simp [List.filter_cons, beq_iff_eq, hy, ih]

theorem filter_sortDesc (l : List (String × Nat)) (c : Nat) :
    (sortDesc l).filter (fun p => p.2 == c) = l.filter (fun p => p.2 == c) := by
  induction l with
  | nil => simp [sortDesc]
  | cons x xs ih =>
      simp only [sortDesc, filter_insertDesc, ih, List.filter_cons]
      by_cases hx : x.2 = c
      · simp [hx]
      · simp [hx]

theorem pairwise_sortDesc (l : List (String × Nat)) :
    (sortDesc l).Pairwise (fun a b => b.2 ≤ a.2) := by
  induction l with
  | nil => simp [sortDesc]
  | cons x xs ih => exact pairwise_insertDesc x (sortDesc xs) ih

theorem fanout_invariant (n : Nat) (s : FanoutState) (h : FanoutReachable n s) :
    s.inFlight + s.permits = semaphoreCap := by
  induction h with
  | refl => simp [initState]
  | tail _ step ih =>
      cases step with
      | start hq hp => dsimp only; omega
      | finish hf => dsimp only; omega

/-! ## Claim theorems -/

/-- C1, counterexample: the extraction schema built for the term "YOLO" has
only three letter fields — the dict in `parse_single_sonnet` is keyed by the
letter itself, so the two 'o' positions collapse into one key and the field
count differs from the number of character positions. -/
theorem claim1_per_position_fields_counterexample :
    schemaKeys "YOLO" = ['y', 'o', 'l'] ∧
    (schemaKeys "YOLO").length ≠ "YOLO".length :=
  ⟨rfl, by decide⟩

/-- C1, amended: the schema has one field per distinct case-folded character
of the term, in first-occurrence order; for "YOLO" the keys are 'y','o','l',
and the per-letter aggregation in the dashboard groups values of repeated
letters into one shared bucket per letter, not separate per-position
buckets. -/
theorem claim1_per_distinct_letter_fields :
    (∀ t : String, (schemaKeys t).Nodup ∧
        ∀ c : Char, c ∈ schemaKeys t ↔ c ∈ lowerChars t) ∧
    schemaKeys "YOLO" = ['y', 'o', 'l'] ∧
    letterAggregation
        [{ term := some "YOLO", primary_meaning := some "You Only Live Once",
           letter_breakdown := some [('y', "You"), ('o', "Only"), ('l', "Live")],
           error := none },
         { term := some "YOLO", primary_meaning := some "Yearning Oscar Lives On",
           letter_breakdown := some [('y', "Yearning"), ('o', "Oscar"), ('l', "Lives")],
           error := none }] =
      [('y', ["You", "Yearning"]), ('o', ["Only", "Oscar"]), ('l', ["Live", "Lives"])] := by
  refine ⟨?_, rfl, rfl⟩
  intro t
  constructor
  · exact nodup_foldl_dictInsertKey (lowerChars t) [] List.nodup_nil
  · intro c
    have h := mem_foldl_dictInsertKey (lowerChars t) [] c
    simpa [schemaKeys] using h

/-- C2: the structuring fan-out returns exactly one record per input, at the
input's position (`asyncio.gather` collects in task order, not completion
order), and a call that raises still fills its slot with the sentinel
error record instead of being dropped. -/
theorem claim2_fanout_positional (slang_term : String) (hrs : List String)
    (env : Nat → ApiOutcome) :
    (parse_with_sonnet slang_term hrs env).length = hrs.length ∧
    (∀ i : Nat, (parse_with_sonnet slang_term hrs env)[i]? =
        if i < hrs.length then some (parse_single_sonnet slang_term (env i)) else none) ∧
    (∀ i e, env i = ApiOutcome.raised e → i < hrs.length →
        (parse_with_sonnet slang_term hrs env)[i]? =
          some { term := some slang_term, primary_meaning := some "Parse failed",
                 letter_breakdown := none, error := some e }) := by
  have hget : ∀ i : Nat, (parse_with_sonnet slang_term hrs env)[i]? =
      if i < hrs.length then some (parse_single_sonnet slang_term (env i)) else none := by
    intro i
    by_cases h : i < hrs.length
    · simp only [parse_with_sonnet, List.getElem?_map, List.getElem?_range h,
        Option.map_some', if_pos h]
    · have hlen : (List.range hrs.length).length ≤ i := by
        simpa [List.length_range] using Nat.le_of_not_lt h
      simp only [parse_with_sonnet, List.getElem?_map, List.getElem?_eq_none hlen,
        Option.map_none', if_neg h]
  refine ⟨by simp [parse_with_sonnet], hget, ?_⟩
  intro i e he hi
  rw [hget i, if_pos hi, he]
  rfl

/-- C2, witness at a concrete batch: two inputs, the second call raising. -/
theorem claim2_fanout_positional_witness :
    (parse_with_sonnet "YOLO" ["A", "B"]
        (fun i => if i = 1 then ApiOutcome.raised "boom" else ApiOutcome.noToolUse)).length
      = 2 ∧
    (parse_with_sonnet "YOLO" ["A", "B"]
        (fun i => if i = 1 then ApiOutcome.raised "boom" else ApiOutcome.noToolUse))[1]? =
      some { term := some "YOLO", primary_meaning := some "Parse failed",
             letter_breakdown := none, error := some "boom" } := by
  have h := claim2_fanout_positional "YOLO" ["A", "B"]
    (fun i => if i = 1 then ApiOutcome.raised "boom" else ApiOutcome.noToolUse)
  exact ⟨h.1, h.2.2 1 "boom" rfl (by decide)⟩

/-- C3, counterexample: the record produced when the model answers without a
tool_use block carries NO error field (`error = none`), unlike a transport
error, and it passes both validity filters, so it is not excluded from
aggregation. -/
theorem claim3_schema_miss_counterexample :
    (parse_single_sonnet "YOLO" ApiOutcome.noToolUse).error = none ∧
    cliValidFilter [parse_single_sonnet "YOLO" ApiOutcome.noToolUse] =
      [parse_single_sonnet "YOLO" ApiOutcome.noToolUse] ∧
    dashboardValidFilter [parse_single_sonnet "YOLO" ApiOutcome.noToolUse] =
      [parse_single_sonnet "YOLO" ApiOutcome.noToolUse] :=
  ⟨rfl, rfl, rfl⟩

/-- C3, amended: a schema-miss yields the "Parse failed - no tool use"
placeholder with an empty letter breakdown and no error field; only a raised
exception yields a record with an error field, so the schema-miss record,
unlike the transport-error record, survives the aggregation filter. -/
theorem claim3_schema_miss_placeholder (slang_term e : String) :
    parse_single_sonnet slang_term ApiOutcome.noToolUse =
      { term := some slang_term, primary_meaning := some "Parse failed - no tool use",
        letter_breakdown := some [], error := none } ∧
    (parse_single_sonnet slang_term (ApiOutcome.raised e)).error = some e ∧
    cliValidFilter [parse_single_sonnet slang_term ApiOutcome.noToolUse,
                    parse_single_sonnet slang_term (ApiOutcome.raised e)] =
      [parse_single_sonnet slang_term ApiOutcome.noToolUse] :=
  ⟨rfl, rfl, rfl⟩

/-- C4, counterexample: on a missing credential the CLI prints the error
message but terminates with exit status 0 — `main` catches the exception,
prints, and returns normally, so the interpreter does not exit non-zero. -/
theorem claim4_exit_status_counterexample :
    cliMain "YOLO" (Except.error "ANTHROPIC_API_KEY environment variable not set") =
      (["Error: ANTHROPIC_API_KEY environment variable not set"], 0) :=
  rfl

/-- C4, amended: on success the CLI prints a header and at most five
top-frequency lines and exits with status 0; on a missing credential or any
pipeline failure it prints an error message — but also exits with status 0,
since the exception is caught and swallowed. -/
theorem claim4_cli_exit_behaviour (slang_term e : String) (parsed : List ParsedRecord) :
    cliMain slang_term (Except.error e) = ([errorMarker ++ " " ++ e], 0) ∧
    (cliMain slang_term (Except.ok parsed)).2 = 0 ∧
    (cliMain slang_term (Except.ok parsed)).1.length =
      3 + (mostCommon 5 (cliMeanings parsed)).length ∧
    (mostCommon 5 (cliMeanings parsed)).length ≤ 5 := by
  refine ⟨rfl, rfl, ?_, ?_⟩
  · simp only [cliMain, List.length_append, List.length_map, List.enum_length,
      List.length_cons, List.length_nil]
  · simp only [mostCommon, List.length_take]
    exact Nat.min_le_left 5 (sortDesc (counter (cliMeanings parsed))).length

/-- C5, counterexample: the CLI validity filter checks only for the absence
of an error field, so a record whose primary meaning is the empty string is
kept and contributes an occurrence of `""` to the frequency counts, against
the claimed "no error AND non-empty primary" validity condition. -/
theorem claim5_empty_primary_counterexample :
    cliValidFilter [{ term := some "YOLO", primary_meaning := some "",
                      letter_breakdown := some [], error := none }] =
      [{ term := some "YOLO", primary_meaning := some "",
         letter_breakdown := some [], error := none }] ∧
    counter (cliMeanings [{ term := some "YOLO", primary_meaning := some "",
                            letter_breakdown := some [], error := none }]) =
      [("", 1)] :=
  ⟨rfl, rfl⟩

/-- C5, amended: only the dashboard aggregator consumes exactly the records
that are valid in the spec's sense (no error indicator and non-empty primary
field); the CLI aggregator filters on the absence of an error field alone.
Records carrying an error field contribute to neither aggregation. -/
theorem claim5_validity_filters (parsed : List ParsedRecord) (r : ParsedRecord) :
    dashboardValidFilter parsed = parsed.filter specValid ∧
    (r ∈ cliValidFilter parsed ↔ r ∈ parsed ∧ r.error = none) ∧
    (r.error ≠ none → ¬ r ∈ cliValidFilter parsed ∧ ¬ r ∈ dashboardValidFilter parsed) := by
  refine ⟨?_, ?_, ?_⟩
  · refine List.filter_congr ?_
    intro x _
    simp [specValid, Bool.and_comm]
  · simp [cliValidFilter, List.mem_filter, Option.isNone_iff_eq_none]
  · intro he
    constructor
    · simp [cliValidFilter, List.mem_filter, Option.isNone_iff_eq_none, he]
    · simp [dashboardValidFilter, List.mem_filter, Option.isNone_iff_eq_none, he]

/-- C5, witness: a record with an error field is excluded by both filters. -/
theorem claim5_validity_filters_witness :
    ¬ ({ term := some "YOLO", primary_meaning := some "Parse failed",
         letter_breakdown := none, error := some "boom" } : ParsedRecord) ∈
        cliValidFilter [{ term := some "YOLO", primary_meaning := some "Parse failed",
                          letter_breakdown := none, error := some "boom" }] ∧
    ¬ ({ term := some "YOLO", primary_meaning := some "Parse failed",
         letter_breakdown := none, error := some "boom" } : ParsedRecord) ∈
        dashboardValidFilter [{ term := some "YOLO", primary_meaning := some "Parse failed",
                                letter_breakdown := none, error := some "boom" }] :=
  (claim5_validity_filters
      [{ term := some "YOLO", primary_meaning := some "Parse failed",
         letter_breakdown := none, error := some "boom" }]
      { term := some "YOLO", primary_meaning := some "Parse failed",
        letter_breakdown := none, error := some "boom" }).2.2 (by decide)

/-- C6: exactly the generation outputs beginning with "Error:" are removed
before the structuring stage, order preserved: the filtered list is a
sublist of the input containing precisely the non-marked outputs, and for
the generation outputs ["A", "Error: timeout", "B"] the structuring stage
receives exactly ["A", "B"]. -/
theorem claim6_error_marker_filtering :
    filterValidHaiku ["A", "Error: timeout", "B"] = ["A", "B"] ∧
    (∀ xs : List String, List.Sublist (filterValidHaiku xs) xs) ∧
    (∀ (xs : List String) (r : String),
        r ∈ filterValidHaiku xs ↔ r ∈ xs ∧ startsWithMarker r = false) ∧
    (run_analysis "YOLO" [Except.ok "A", Except.error "timeout", Except.ok "B"]
        (fun _ => ApiOutcome.noToolUse)).1 = ["A", "B"] ∧
    (run_analysis "YOLO" [Except.ok "A", Except.error "timeout", Except.ok "B"]
        (fun _ => ApiOutcome.noToolUse)).2.length = 2 := by
  refine ⟨rfl, ?_, ?_, rfl, rfl⟩
  · intro xs
    exact List.filter_sublist xs
  · intro xs r
    simp [filterValidHaiku, List.mem_filter]

/-- C7: a structuring call whose API call raises returns the sentinel record
(an explicit error field, no letter-breakdown field) — in the embedding
`parse_single_sonnet` is a total function of the call outcome, so no
exception escapes — and the fan-out output always has one record per
input, so the record is never omitted. -/
theorem claim7_raised_call_sentinel (slang_term e : String) (hrs : List String)
    (env : Nat → ApiOutcome) :
    parse_single_sonnet slang_term (ApiOutcome.raised e) =
      { term := some slang_term, primary_meaning := some "Parse failed",
        letter_breakdown := none, error := some e } ∧
    (parse_single_sonnet slang_term (ApiOutcome.raised e)).error.isSome = true ∧
    (parse_single_sonnet slang_term (ApiOutcome.raised e)).letter_breakdown = none ∧
    (parse_with_sonnet slang_term hrs env).length = hrs.length := by
  refine ⟨rfl, rfl, rfl, ?_⟩
  simp [parse_with_sonnet]

/-- C8: aggregating the three records of the claim yields the counts
(2, 1) with the 2-count entry first; in general `most_common` output is
ordered by descending count, and the sort is stable: for any count value,
the entries carrying it appear in the same order as in the counter, which
itself lists keys in first-seen order. -/
theorem claim8_frequency_order :
    mostCommon 5 (cliMeanings
        [{ term := some "YOLO", primary_meaning := some "You Only Live Once",
           letter_breakdown := some [], error := none },
         { term := some "YOLO", primary_meaning := some "You Only Live Once",
           letter_breakdown := some [], error := none },
         { term := some "YOLO", primary_meaning := some "Yelling On Live Outlets",
           letter_breakdown := some [], error := none }]) =
      [("You Only Live Once", 2), ("Yelling On Live Outlets", 1)] ∧
    (∀ (n : Nat) (xs : List String),
        (mostCommon n xs).Pairwise (fun a b => b.2 ≤ a.2)) ∧
    (∀ (l : List (String × Nat)) (c : Nat),
        (sortDesc l).filter (fun p => p.2 == c) = l.filter (fun p => p.2 == c)) := by
  refine ⟨rfl, ?_, filter_sortDesc⟩
  intro n xs
  exact (pairwise_sortDesc (counter xs)).sublist (List.take_sublist n _)

/-- C9: in any reachable state of a fan-out batch, at most 10 operations are
in flight; every step keeps the bound, and a step that admits a new
operation can only fire when strictly fewer than 10 are in flight. -/
theorem claim9_semaphore_bound (n : Nat) (s : FanoutState) (h : FanoutReachable n s) :
    s.inFlight ≤ semaphoreCap ∧
    (∀ t, FanoutStep s t → t.inFlight ≤ semaphoreCap) ∧
    (∀ t, FanoutStep s t → t.inFlight = s.inFlight + 1 → s.inFlight < semaphoreCap) := by
  have hinv := fanout_invariant n s h
  refine ⟨by omega, ?_, ?_⟩
  · intro t ht
    cases ht with
    | start hq hp => dsimp only; omega
    | finish hf => dsimp only; omega
  · intro t ht hinc
    cases ht with
    | start hq hp => omega
    | finish hf => dsimp only at hinc; omega

/-- C9, witness: the initial state of a 3-task batch. -/
theorem claim9_semaphore_bound_witness :
    (initState 3).inFlight ≤ semaphoreCap ∧
    (∀ t, FanoutStep (initState 3) t → t.inFlight ≤ semaphoreCap) ∧
    (∀ t, FanoutStep (initState 3) t →
        t.inFlight = (initState 3).inFlight + 1 → (initState 3).inFlight < semaphoreCap) :=
  claim9_semaphore_bound 3 (initState 3) Relation.ReflTransGen.refl

/-- C10: `get_api_key` fails with the credential error both when the
environment variable is unset and when it is set to the empty string
(Python's `if not api_key` treats `""` as falsy), and returns any other
key unchanged. -/
theorem claim10_get_api_key_falsy (k : String) (hk : k ≠ "") :
    get_api_key none = Except.error "ANTHROPIC_API_KEY environment variable not set" ∧
    get_api_key (some "") = Except.error "ANTHROPIC_API_KEY environment variable not set" ∧
    get_api_key (some k) = Except.ok k := by
  refine ⟨rfl, rfl, ?_⟩
  simp [get_api_key, hk]

/-- C10, witness at a concrete non-empty key. -/
theorem claim10_get_api_key_falsy_witness :
    get_api_key (some "sk-123") = Except.ok "sk-123" :=
  (claim10_get_api_key_falsy "sk-123" (by decide)).2.2

end SlangAnalysis
